import Mathlib

/-!
Verification of `Scripts/analyze_complexity.py`: a shallow embedding of the
script's data model and operations, followed by theorems about them.

Text is modelled as `List Char`.  The script's regular expressions are fixed
patterns (literals, word boundaries `\b`, one negative lookahead, `\s+`, `\w+`),
embedded here as executable matchers scanned left-to-right without overlap,
exactly as `re.findall` does.  The regex classes `\w` and `\s` are modelled by
their ASCII cores (the analyzed sources are ASCII).  Python floats are modelled
as exact rationals: every weight in the script is a short decimal.
-/

/-- Text is a list of characters. -/
abbrev Str := List Char

/-- The word-character class of the script's regexes (`\w` : letters, digits, underscore). -/
def isWordChar (c : Char) : Bool := c.isAlphanum || c == '_'

/-- Word-ness of an optional character; `none` (no character) is not a word character. -/
def isWordOpt : Option Char → Bool
  | none => false
  | some c => isWordChar c

/-- A matcher tries a pattern at the current position.  It receives the character
just before the position (for `\b` checks) and the remaining text, and returns
the number of characters consumed on success. -/
abbrev Matcher := Option Char → Str → Option Nat

/-- Plain literal pattern (`as!`, `try?`, `try!`, `?.`, `??`, `@escaping`, `\{`). -/
def matchLit (pat : Str) : Matcher := fun _ s =>
  if pat.isPrefixOf s then some pat.length else none

/-- Literal preceded by `\b`; the pattern's first character is a word character,
so the boundary holds iff the previous character is absent or not a word character
(`\binit\?`). -/
def matchPreB (pat : Str) : Matcher := fun prev s =>
  if !isWordOpt prev && pat.isPrefixOf s then some pat.length else none

/-- Literal followed by `\b`; the pattern's last character is a word character,
so the boundary holds iff the next character is absent or not a word character
(`@objc\b`). -/
def matchPostB (pat : Str) : Matcher := fun _ s =>
  if pat.isPrefixOf s && !isWordOpt ((s.drop pat.length).head?) then some pat.length
  else none

/-- Literal enclosed in `\b … \b` (`\bclosure\b`, `\bdeinit\b`, `\bextension\b`). -/
def matchBothB (pat : Str) : Matcher := fun prev s =>
  if !isWordOpt prev && pat.isPrefixOf s && !isWordOpt ((s.drop pat.length).head?) then
    some pat.length
  else none

/-- The force-unwrap pattern `!(?!\=)`: a `!` not followed by `=`. -/
def matchBang : Matcher := fun _ s =>
  match s with
  | '!' :: rest => if rest.head? == some '=' then none else some 1
  | _ => none

/-- Alternation of word-bounded keywords, tried in the regex's order
(`\b(if|guard|switch|while|for)\b`). -/
def matchKwAlt (kws : List Str) : Matcher := fun prev s =>
  kws.findSome? (fun kw => matchBothB kw prev s)

/-- A declaration pattern `\bkw\s+\w+` (`\bclass\s+\w+`, …, `\bfunc\s+\w+`):
the keyword at a word boundary, one or more whitespace characters, then one or
more word characters, both runs taken greedily as the regex does. -/
def matchDecl (kw : Str) : Matcher := fun prev s =>
  if !isWordOpt prev && kw.isPrefixOf s then
    let r1 := s.drop kw.length
    let sp := r1.takeWhile (·.isWhitespace)
    let wd := (r1.drop sp.length).takeWhile isWordChar
    if sp.length != 0 && wd.length != 0 then some (kw.length + sp.length + wd.length)
    else none
  else none

/-- One step of `re.findall`'s scan: at each position try the matcher; on success
count one match and resume after the consumed text, otherwise advance one
character.  The fuel argument is the remaining length, enough because every
step consumes at least one character. -/
def countMatchesAux (m : Matcher) : Nat → Option Char → Str → Nat
  | 0, _, _ => 0
  | _ + 1, _, [] => 0
  | fuel + 1, prev, c :: cs =>
    match m prev (c :: cs) with
    | some n =>
      let k := max 1 n
      1 + countMatchesAux m fuel (((c :: cs).take k).getLast?) ((c :: cs).drop k)
    | none => countMatchesAux m fuel (some c) cs

/-- `len(re.findall(pattern, content))`: the number of non-overlapping matches
of a pattern in the text, scanning left to right. -/
def countMatches (m : Matcher) (s : Str) : Nat := countMatchesAux m s.length none s

/-- The type-declaration patterns of `count_types`. -/
def typeKws : List Str := ["class".toList, "struct".toList, "enum".toList, "protocol".toList]

/-- `count_types`: the sum over the four declaration patterns of their match counts. -/
def count_types (content : Str) : Nat :=
  (typeKws.map (fun kw => countMatches (matchDecl kw) content)).sum

/-- `count_functions`: matches of `\bfunc\s+\w+`. -/
def count_functions (content : Str) : Nat := countMatches (matchDecl "func".toList) content

/-- The keywords of the conditional pattern `\b(if|guard|switch|while|for)\b`,
in the regex's order. -/
def condKws : List Str :=
  ["if".toList, "guard".toList, "switch".toList, "while".toList, "for".toList]

/-- The `complex_patterns` table of `calculate_complexity`: ten idiom patterns,
each with its weight. -/
def complexPatterns : List (Matcher × ℚ) :=
  [(matchLit "try?".toList, 0.2),
   (matchLit "try!".toList, 0.4),
   (matchLit "?.".toList, 0.1),
   (matchLit "??".toList, 0.2),
   (matchLit "@escaping".toList, 0.3),
   (matchBothB "closure".toList, 0.2),
   (matchPreB "init?".toList, 0.2),
   (matchBothB "deinit".toList, 0.3),
   (matchPostB "@objc".toList, 0.2),
   (matchBothB "extension".toList, 0.1)]

/-- `calculate_complexity`: the weighted sum of the script's pattern counts.
The four leading summands are the `nesting_score`, `conditionals`,
`force_unwrap` and `force_cast` locals of the source; the final summand is its
`pattern_score`. -/
def calculate_complexity (content : Str) : ℚ :=
  (countMatches (matchLit ['{']) content : ℚ) * 0.1
  + (countMatches (matchKwAlt condKws) content : ℚ) * 0.2
  + (countMatches matchBang content : ℚ) * 0.3
  + (countMatches (matchLit "as!".toList) content : ℚ) * 0.3
  + (complexPatterns.map (fun pw => (countMatches pw.1 content : ℚ) * pw.2)).sum

/-- `file_path.split(os.sep)` with `os.sep = '/'`, Python semantics:
`"".split('/') == [""]`, empty segments kept. -/
def splitSep : Str → List Str
  | [] => [[]]
  | c :: cs =>
    match splitSep cs with
    | [] => [[]]
    | s :: rest => if c == '/' then [] :: s :: rest else (c :: s) :: rest

/-- The `excluded_dirs` set of `should_analyze_file`. -/
def excludedDirs : List Str :=
  [".build".toList, ".git".toList, "Tests".toList, "Examples".toList, "Documentation".toList]

/-- `should_analyze_file`: reject any path one of whose segments is an excluded
directory name, then require the `.swift` extension. -/
def shouldAnalyzeFile (p : Str) : Bool :=
  if (splitSep p).any (fun part => excludedDirs.contains part) then false
  else ".swift".toList.isSuffixOf p

/-- `os.path.join` for the cases arising here: an absolute second component wins;
otherwise a separator is inserted unless one is already present. -/
def pathJoin (p q : Str) : Str :=
  if q.head? == some '/' then q
  else if p == [] then q
  else if p.getLast? == some '/' then p ++ q
  else p ++ '/' :: q

/-- `os.path.relpath(p, start)` for the paths produced by the walk: a path under
`start` is `start` stripped off; `start` itself is `"."`.  (For unrelated paths
`os.path.relpath` builds a `..`-path; the script never produces that case, and
this model returns the path unchanged there.) -/
def relpath (p start : Str) : Str :=
  if (start ++ ['/']).isPrefixOf p then p.drop (start.length + 1)
  else if p == start then ['.']
  else p

/-- `len(content.splitlines())`.  Files are read in text mode, so line breaks
are `'\n'` (universal-newline translation). -/
def countLines (s : Str) : Nat :=
  if s == [] then 0
  else (s.filter (· == '\n')).length + (if s.getLast? == some '\n' then 0 else 1)

/-- Python's substring test `pat in s`. -/
def containsSub (s pat : Str) : Bool :=
  if pat.isPrefixOf s then true
  else
    match s with
    | [] => false
    | _ :: cs => containsSub cs pat

/-- A SwiftLint log line counts as a diagnostic if it contains a severity marker. -/
def qualifiesLint (l : Str) : Bool :=
  containsSub l "warning: ".toList || containsSub l "error: ".toList

/-- `line.split(':')[0]`: the text before the first colon. -/
def lintKey (l : Str) : Str := l.takeWhile (· != ':')

/-- `lint_issues[file_path] += 1` on a `defaultdict(int)`, modelled as a total
map defaulting to 0. -/
def lintAdd (m : Str → Nat) (k : Str) : Str → Nat :=
  fun p => if p = k then m k + 1 else m p

/-- The line loop of the SwiftLint-report parser. -/
def parseLintFrom (m : Str → Nat) : List Str → (Str → Nat)
  | [] => m
  | l :: ls => parseLintFrom (if qualifiesLint l then lintAdd m (lintKey l) else m) ls

/-- Parse a report's lines into the issue-count map. -/
def parseLintLines (ls : List Str) : Str → Nat := parseLintFrom (fun _ => 0) ls

/-- `lint_issues` after the optional report file is handled: absent file, empty map. -/
def lintMapOf : Option (List Str) → (Str → Nat)
  | none => fun _ => 0
  | some ls => parseLintLines ls

/-- The `FileMetrics` dataclass. -/
structure FileMetrics where
  path : Str
  line_count : Nat
  type_count : Nat
  function_count : Nat
  complexity_score : ℚ
  lint_issues : Nat
deriving DecidableEq

/-- The record appended for one successfully read file (`metrics.append(...)`).
`fp` is the joined traversal path; the stored path is relative to the root,
while the lint lookup uses `fp` itself. -/
def fileRecord (root : Str) (lint : Str → Nat) (fp : Str) (content : Str) : FileMetrics :=
  { path := relpath fp root
    line_count := countLines content
    type_count := count_types content
    function_count := count_functions content
    complexity_score := calculate_complexity content
    lint_issues := lint fp }

/-- The file system presented to one run: whether the root is a directory (the
script never consults this), the lines of `swiftlint_report.txt` when that file
exists, the `os.walk` output (directory path and file names per visited
directory; empty when the root is not a directory), and the result of reading
each file. -/
structure FS where
  isDir : Bool
  lintLines : Option (List Str)
  walk : List (Str × List Str)
  read : Str → Except Str Str

/-- The inner loop of `analyze_swift_files` over one directory's files:
ineligible files are skipped, read errors append a message to the error channel
and skip the file, successful reads append a metrics record. -/
def analyzeDir (root : Str) (lint : Str → Nat) (readF : Str → Except Str Str) (d : Str) :
    List Str → List FileMetrics × List Str
  | [] => ([], [])
  | n :: ns =>
    let rest := analyzeDir root lint readF d ns
    let fp := pathJoin d n
    if shouldAnalyzeFile fp then
      match readF fp with
      | Except.ok content => (fileRecord root lint fp content :: rest.1, rest.2)
      | Except.error e =>
        (rest.1, ("Error processing ".toList ++ fp ++ ": ".toList ++ e) :: rest.2)
    else rest

/-- The outer loop of `analyze_swift_files` over the walk entries. -/
def analyzeWalk (root : Str) (lint : Str → Nat) (readF : Str → Except Str Str) :
    List (Str × List Str) → List FileMetrics × List Str
  | [] => ([], [])
  | e :: es =>
    let h := analyzeDir root lint readF e.1 e.2
    let t := analyzeWalk root lint readF es
    (h.1 ++ t.1, h.2 ++ t.2)

/-- `analyze_swift_files(root_dir)`: parse the optional lint report, then walk
the tree collecting metrics; the second component is the stderr channel. -/
def analyzeSwiftFiles (root : Str) (fs : FS) : List FileMetrics × List Str :=
  analyzeWalk root (lintMapOf fs.lintLines) fs.read fs.walk

/-- All (directory, file-name) pairs of a walk, in traversal order. -/
def walkPairs (walk : List (Str × List Str)) : List (Str × Str) :=
  walk.flatMap (fun e => e.2.map (fun n => (e.1, n)))

/-- The metrics record one walked file contributes, if any. -/
def processOk (root : Str) (lint : Str → Nat) (readF : Str → Except Str Str)
    (pr : Str × Str) : Option FileMetrics :=
  let fp := pathJoin pr.1 pr.2
  if shouldAnalyzeFile fp then
    match readF fp with
    | Except.ok c => some (fileRecord root lint fp c)
    | Except.error _ => none
  else none

/-- The stderr line one walked file contributes, if any. -/
def processErr (readF : Str → Except Str Str) (pr : Str × Str) : Option Str :=
  let fp := pathJoin pr.1 pr.2
  if shouldAnalyzeFile fp then
    match readF fp with
    | Except.ok _ => none
    | Except.error e => some ("Error processing ".toList ++ fp ++ ": ".toList ++ e)
  else none

/-- The sort key of `generate_report`: `complexity_score + lint_issues * 0.5`. -/
def sortKey (m : FileMetrics) : ℚ := m.complexity_score + (m.lint_issues : ℚ) * 0.5

/-- The descending, stability-preserving comparison used by the report's sort:
`a` may stay before `b` iff `b`'s key does not exceed `a`'s. -/
def keyGE (a b : FileMetrics) : Prop := sortKey b ≤ sortKey a

instance : DecidableRel keyGE := fun a b => inferInstanceAs (Decidable (sortKey b ≤ sortKey a))

instance : IsTotal FileMetrics keyGE := ⟨fun a b => le_total (sortKey b) (sortKey a)⟩

instance : IsTrans FileMetrics keyGE := ⟨fun _ _ _ h1 h2 => le_trans h2 h1⟩

/-- `metrics.sort(key=..., reverse=True)`: Python's sort is stable; a stable
sort with respect to a total preorder is extensionally unique, realized here by
insertion sort. -/
def sortMetrics (l : List FileMetrics) : List FileMetrics := List.insertionSort keyGE l

/-- One printed line of the report, carrying the values the script interpolates
into it (the `:.2f` rendering of the score is display-only). -/
inductive OutLine where
  | txt : String → OutLine
  | pathLine : Str → OutLine
  | pathColon : Str → OutLine
  | natLine : String → Nat → OutLine
  | scoreLine : ℚ → OutLine
deriving DecidableEq

/-- The six lines printed per entry of the top-10 listing. -/
def topEntry (m : FileMetrics) : List OutLine :=
  [OutLine.pathLine m.path,
   OutLine.natLine "  Lines: " m.line_count,
   OutLine.natLine "  Types: " m.type_count,
   OutLine.natLine "  Functions: " m.function_count,
   OutLine.scoreLine m.complexity_score,
   OutLine.natLine "  Lint Issues: " m.lint_issues]

/-- The recommendation block printed for one top-5 entry: nothing unless the
entry's score exceeds 5 or it has lint issues; otherwise the path heading and
the threshold-gated suggestion lines. -/
def recLines (m : FileMetrics) : List OutLine :=
  if 5 < m.complexity_score ∨ 0 < m.lint_issues then
    OutLine.pathColon m.path ::
      ((if 300 < m.line_count then [OutLine.txt "- Consider splitting into smaller files"]
        else []) ++
       (if 3 < m.type_count then [OutLine.txt "- Consider separating types into different files"]
        else []) ++
       (if 10 < m.function_count then
          [OutLine.txt "- Consider extracting some functions into extensions"]
        else []) ++
       (if 0 < m.lint_issues then [OutLine.txt "- Address SwiftLint issues"] else []) ++
       (if 10 < m.complexity_score then
          [OutLine.txt "- High complexity score indicates need for simplification",
           OutLine.txt "  * Look for opportunities to reduce nesting",
           OutLine.txt "  * Consider breaking down complex functions",
           OutLine.txt "  * Review force unwrapping and force casting usage"]
        else []))
  else []

/-- `generate_report`: sort, print the top-10 listing, the summary statistics
over the whole collection, then the recommendations for the top-5 entries. -/
def generateReport (metrics : List FileMetrics) : List OutLine :=
  let ms := sortMetrics metrics
  [OutLine.txt "\nRefactoring Priority Report",
   OutLine.txt "=========================\n",
   OutLine.txt "Top 10 Files Requiring Attention:",
   OutLine.txt "--------------------------------"]
  ++ (ms.take 10).flatMap topEntry
  ++ [OutLine.txt "\nSummary Statistics:",
      OutLine.txt "------------------",
      OutLine.natLine "Total Files: " ms.length,
      OutLine.natLine "Total Lines: " (ms.map (·.line_count)).sum,
      OutLine.natLine "Total Types: " (ms.map (·.type_count)).sum,
      OutLine.natLine "Total Functions: " (ms.map (·.function_count)).sum,
      OutLine.natLine "Total Lint Issues: " (ms.map (·.lint_issues)).sum]
  ++ [OutLine.txt "\nRefactoring Recommendations:",
      OutLine.txt "---------------------------"]
  ++ (ms.take 5).flatMap recLines

/-- The usage message of the `__main__` block. -/
def usageLine : OutLine := OutLine.txt "Usage: python3 analyze_complexity.py <root_directory>"

/-- Observable outcome of one invocation: exit status, stdout, stderr. -/
structure RunResult where
  exitCode : Nat
  out : List OutLine
  err : List Str

/-- The `__main__` block: with any argument count other than two, print the
usage line and exit 1; otherwise scan `sys.argv[1]` and print the report.
No other validation is performed. -/
def runMain (argv : List Str) (fs : FS) : RunResult :=
  if argv.length ≠ 2 then ⟨1, [usageLine], []⟩
  else
    let r := analyzeSwiftFiles (argv.getD 1 []) fs
    ⟨0, generateReport r.1, r.2⟩

/-- Well-formedness of a walk as `os.walk` produces it: a non-empty root with
no trailing separator, every visited directory the root itself or below it,
and no file name starting with a separator. -/
def FS.WF (root : Str) (fs : FS) : Prop :=
  root ≠ [] ∧ root.getLast? ≠ some '/' ∧
    ∀ e ∈ fs.walk, (e.1 = root ∨ (root ++ ['/']).isPrefixOf e.1 = true) ∧
      ∀ n ∈ e.2, n.head? ≠ some '/'

/-- A sample SwiftLint log: two qualifying lines for `Foo.src`, one for
`Bar.src`, and one line with no severity marker. -/
def demoLog : List Str :=
  ["Foo.src:10:2: warning: line too long".toList,
   "note: compilation summary".toList,
   "Foo.src:30:1: error: unused variable".toList,
   "Bar.src:3:3: warning: todo found".toList]

/-- Record with key 1.0, first in collection order. -/
def recA : FileMetrics := ⟨"a".toList, 0, 0, 0, 1, 0⟩

/-- Record with key 3.0, second in collection order. -/
def recB : FileMetrics := ⟨"b".toList, 0, 0, 0, 3, 0⟩

/-- Record with key 3.0, third in collection order. -/
def recC : FileMetrics := ⟨"c".toList, 0, 0, 0, 3, 0⟩

/-- Record with key 2.0, fourth in collection order. -/
def recD : FileMetrics := ⟨"d".toList, 0, 0, 0, 2, 0⟩

/-- A run whose root is not a directory: `os.walk` yields nothing, the lint
report is absent, every read fails. -/
def fsNoDir : FS :=
  ⟨false, none, [], fun _ => Except.error "No such directory".toList⟩

/-- An argument vector with the correct count and a non-directory path. -/
def argvND : List Str := ["analyze_complexity.py".toList, "missing_dir".toList]

/-- A run over a directory of three eligible files of which one fails to read. -/
def fsPartial : FS :=
  ⟨true, none,
   [("proj".toList, ["a.swift".toList, "b.swift".toList, "c.swift".toList])],
   fun p =>
     if p = "proj/b.swift".toList then Except.error "Permission denied".toList
     else Except.ok []⟩

/-- The argument vector scanning `proj`. -/
def argvPartial : List Str := ["analyze_complexity.py".toList, "proj".toList]

/-- A well-formed single-file run used as a concrete instance. -/
def fsSolo : FS :=
  ⟨true, none, [("r".toList, ["m.swift".toList])], fun _ => Except.ok []⟩

/-- The one record `fsSolo` produces. -/
def mSolo : FileMetrics :=
  fileRecord "r".toList (lintMapOf none) (pathJoin "r".toList "m.swift".toList) []

/-- A SwiftLint log whose two paths are the root-relative paths of the two
files walked by `fsX`. -/
def lintLogX : List Str :=
  ["x.swift:1:1: warning: w".toList, "a/x.swift:1:1: warning: w".toList]

/-- The walked files of a two-level tree rooted at `a`, with the log `lintLogX`. -/
def fsX : FS :=
  ⟨true, some lintLogX,
   [("a".toList, ["x.swift".toList]), ("a/a".toList, ["x.swift".toList])],
   fun _ => Except.ok []⟩

/-- Unfolding of the fixed `complex_patterns` table inside the score. -/
lemma calculate_complexity_eq (c : Str) :
    calculate_complexity c =
      (countMatches (matchLit ['{']) c : ℚ) * 0.1
      + (countMatches (matchKwAlt condKws) c : ℚ) * 0.2
      + (countMatches matchBang c : ℚ) * 0.3
      + (countMatches (matchLit "as!".toList) c : ℚ) * 0.3
      + ((countMatches (matchLit "try?".toList) c : ℚ) * 0.2
      + (countMatches (matchLit "try!".toList) c : ℚ) * 0.4
      + (countMatches (matchLit "?.".toList) c : ℚ) * 0.1
      + (countMatches (matchLit "??".toList) c : ℚ) * 0.2
      + (countMatches (matchLit "@escaping".toList) c : ℚ) * 0.3
      + (countMatches (matchBothB "closure".toList) c : ℚ) * 0.2
      + (countMatches (matchPreB "init?".toList) c : ℚ) * 0.2
      + (countMatches (matchBothB "deinit".toList) c : ℚ) * 0.3
      + (countMatches (matchPostB "@objc".toList) c : ℚ) * 0.2
      + (countMatches (matchBothB "extension".toList) c : ℚ) * 0.1) := by
  simp only [calculate_complexity, complexPatterns, List.map_cons, List.map_nil,
    List.sum_cons, List.sum_nil]
  ring

/-- The inner file loop collects exactly the records and errors of its
eligible files, in order. -/
lemma analyzeDir_eq (root : Str) (lint : Str → Nat) (readF : Str → Except Str Str) (d : Str)
    (ns : List Str) :
    analyzeDir root lint readF d ns =
      ((ns.map (fun n => (d, n))).filterMap (processOk root lint readF),
       (ns.map (fun n => (d, n))).filterMap (processErr readF)) := by
  induction ns with
  | nil => rfl
  | cons n ns ih =>
    simp only [analyzeDir, ih, List.map_cons, List.filterMap_cons, processOk, processErr]
    by_cases h : shouldAnalyzeFile (pathJoin d n)
    · simp only [h, if_true]
      cases readF (pathJoin d n) <;> simp
    · simp [h]

/-- The walk loop collects exactly the records and errors of the eligible
walked files, in traversal order. -/
lemma analyzeWalk_eq (root : Str) (lint : Str → Nat) (readF : Str → Except Str Str)
    (walk : List (Str × List Str)) :
    analyzeWalk root lint readF walk =
      ((walkPairs walk).filterMap (processOk root lint readF),
       (walkPairs walk).filterMap (processErr readF)) := by
  induction walk with
  | nil => rfl
  | cons e es ih =>
    simp only [analyzeWalk, walkPairs, List.flatMap_cons, List.filterMap_append, ih,
      analyzeDir_eq]

/-- Characterization of `analyze_swift_files`: its metrics are the
per-eligible-file records, its stderr lines the per-failing-file messages. -/
lemma analyze_characterization (root : Str) (fs : FS) :
    analyzeSwiftFiles root fs =
      ((walkPairs fs.walk).filterMap (processOk root (lintMapOf fs.lintLines) fs.read),
       (walkPairs fs.walk).filterMap (processErr fs.read)) :=
  analyzeWalk_eq root (lintMapOf fs.lintLines) fs.read fs.walk

/-- The lint map counts, above its initial value, the qualifying lines whose
key is the queried path. -/
lemma parseLintFrom_apply (ls : List Str) (m : Str → Nat) (p : Str) :
    parseLintFrom m ls p =
      m p + (ls.filter (fun l => qualifiesLint l && lintKey l == p)).length := by
  induction ls generalizing m with
  | nil => simp [parseLintFrom]
  | cons l ls ih =>
    simp only [parseLintFrom, ih, List.filter_cons]
    by_cases hq : qualifiesLint l
    · by_cases hk : lintKey l = p
      · simp [lintAdd, hq, hk, List.length_cons]
        omega
      · simp [lintAdd, hq, hk, Ne.symm hk]
    · simp [hq]

/-- The lint map counts the qualifying lines whose key is the queried path. -/
lemma parseLintLines_apply (ls : List Str) (p : Str) :
    parseLintLines ls p = (ls.filter (fun l => qualifiesLint l && lintKey l == p)).length := by
  simpa using parseLintFrom_apply ls (fun _ => 0) p

lemma sortMetrics_sorted (l : List FileMetrics) : (sortMetrics l).Pairwise keyGE :=
  List.sorted_insertionSort keyGE l

lemma sortMetrics_perm (l : List FileMetrics) : (sortMetrics l).Perm l :=
  List.perm_insertionSort keyGE l

/-- Inserting an element does not disturb the subsequence of any fixed key
class: the insertion point lies before every element of equal key. -/
lemma filter_key_orderedInsert (k : ℚ) (x : FileMetrics) (l : List FileMetrics) :
    (List.orderedInsert keyGE x l).filter (fun m => decide (sortKey m = k)) =
      if sortKey x = k then x :: l.filter (fun m => decide (sortKey m = k))
      else l.filter (fun m => decide (sortKey m = k)) := by
  induction l with
  | nil =>
    by_cases h : sortKey x = k <;> simp [List.orderedInsert, List.filter, h]
  | cons y l ih =>
    simp only [List.orderedInsert]
    by_cases hxy : keyGE x y
    · by_cases hx : sortKey x = k <;> simp [hxy, List.filter_cons, hx]
    · have hlt : sortKey x < sortKey y := lt_of_not_le hxy
      by_cases hx : sortKey x = k
      · have hy : sortKey y ≠ k := by rw [← hx]; exact ne_of_gt hlt
        simp [hxy, List.filter_cons, hx, hy, ih]
      · by_cases hy : sortKey y = k <;> simp [hxy, List.filter_cons, hx, hy, ih]

/-- Stability of the report's sort: every key class keeps its original order. -/
lemma sortMetrics_stable (l : List FileMetrics) (k : ℚ) :
    (sortMetrics l).filter (fun m => decide (sortKey m = k)) =
      l.filter (fun m => decide (sortKey m = k)) := by
  induction l with
  | nil => rfl
  | cons x l ih =>
    show (List.orderedInsert keyGE x (List.insertionSort keyGE l)).filter _ = _
    rw [filter_key_orderedInsert]
    by_cases h : sortKey x = k <;> simp [h, List.filter_cons, ← ih, sortMetrics]

/-- A suffix containing no separator and reaching into `root ++ '/' :: tail`
cannot cross the separator, so it is a suffix of `tail`. -/
lemma suffix_drop_of_no_sep {root tail sfx : Str} (hns : '/' ∉ sfx)
    (hsfx : sfx <:+ root ++ '/' :: tail) : sfx <:+ tail := by
  obtain ⟨u, hu⟩ := hsfx
  rcases le_or_lt (root.length + 1) u.length with h | h
  · have hpre1 : (root ++ ['/']) <+: (u ++ sfx) := by
      rw [hu]
      exact ⟨tail, by simp⟩
    have hpre2 : u <+: u ++ sfx := ⟨sfx, rfl⟩
    have hpre : (root ++ ['/']) <+: u :=
      List.prefix_of_prefix_length_le hpre1 hpre2 (by simpa using h)
    obtain ⟨v, hv⟩ := hpre
    refine ⟨v, ?_⟩
    have : (root ++ ['/']) ++ (v ++ sfx) = (root ++ ['/']) ++ tail := by
      rw [← List.append_assoc, hv, hu]
      simp
    simpa using List.append_cancel_left this
  · exfalso
    apply hns
    have hdrop : sfx = (root ++ '/' :: tail).drop u.length := by
      rw [← hu, List.drop_left]
    have hle : u.length ≤ root.length := by omega
    rw [hdrop, show root ++ '/' :: tail = (root ++ ['/']) ++ tail by simp,
      List.drop_append_of_le_length (by simp; omega), List.drop_append_of_le_length hle]
    simp

/-- Under a well-formed walk, every joined traversal path lies strictly below
the root. -/
lemma pathJoin_shape {root : Str} (hroot : root ≠ []) (hsl : root.getLast? ≠ some '/')
    {d n : Str} (hd : d = root ∨ (root ++ ['/']).isPrefixOf d = true)
    (hn : n.head? ≠ some '/') :
    ∃ tail, pathJoin d n = root ++ '/' :: tail := by
  have hn' : (n.head? == some '/') = false := by
    cases hh : n.head? with
    | none => rfl
    | some c =>
      simp only [beq_eq_false_iff_ne, ne_eq, Option.some.injEq]
      intro hc
      exact hn (by rw [hh, hc])
  rcases hd with hd | hd
  · subst hd
    have hd' : (d == ([] : Str)) = false := by
      simpa [beq_eq_false_iff_ne] using hroot
    have hsl' : (d.getLast? == some '/') = false := by
      cases hh : d.getLast? with
      | none => rfl
      | some c =>
        simp only [beq_eq_false_iff_ne, ne_eq, Option.some.injEq]
        intro hc
        exact hsl (by rw [hh, hc])
    exact ⟨n, by simp [pathJoin, hn', hd', hsl']⟩
  · obtain ⟨s, hs⟩ := List.isPrefixOf_iff_prefix.mp hd
    have hd0 : d ≠ [] := by
      intro h
      rw [h] at hs
      exact absurd hs.symm (by simp)
    have hd' : (d == ([] : Str)) = false := by
      simpa [beq_eq_false_iff_ne] using hd0
    by_cases hlast : d.getLast? = some '/'
    · refine ⟨s ++ n, ?_⟩
      have hlast' : (d.getLast? == some '/') = true := by simp [hlast]
      have hpj : pathJoin d n = d ++ n := by simp [pathJoin, hn', hd', hlast']
      rw [hpj, ← hs]
      simp
    · have hlast' : (d.getLast? == some '/') = false := by
        cases hh : d.getLast? with
        | none => rfl
        | some c =>
          simp only [beq_eq_false_iff_ne, ne_eq, Option.some.injEq]
          intro hc
          exact hlast (by rw [hh, hc])
      refine ⟨s ++ '/' :: n, ?_⟩
      have hpj : pathJoin d n = d ++ '/' :: n := by simp [pathJoin, hn', hd', hlast']
      rw [hpj, ← hs]
      simp

/-- Stripping the root off a traversal path below it. -/
lemma relpath_below (root tail : Str) :
    relpath (root ++ '/' :: tail) root = tail := by
  have hpre : (root ++ ['/']).isPrefixOf (root ++ '/' :: tail) = true := by
    rw [List.isPrefixOf_iff_prefix]
    exact ⟨tail, by simp⟩
  simp only [relpath, hpre, if_true]
  rw [show root ++ '/' :: tail = (root ++ ['/']) ++ tail by simp, List.drop_left' (by simp)]

/-- Claim C1: for every file text, the complexity score equals the sum over the
fixed pattern set of `count(pattern) * weight`, with weights 0.1 for
block-opening markers, 0.2 for the branching/looping keywords, 0.3 for
force-unwrap and 0.3 for force-cast operators, and 0.2, 0.4, 0.1, 0.2, 0.3,
0.2, 0.2, 0.3, 0.2, 0.1 for the ten additional idiom patterns in their
listed order. -/
theorem claim1_complexity_weighted_sum (content : Str) :
    calculate_complexity content =
      (countMatches (matchLit ['{']) content : ℚ) * 0.1
      + (countMatches (matchKwAlt condKws) content : ℚ) * 0.2
      + (countMatches matchBang content : ℚ) * 0.3
      + (countMatches (matchLit "as!".toList) content : ℚ) * 0.3
      + ((countMatches (matchLit "try?".toList) content : ℚ) * 0.2
      + (countMatches (matchLit "try!".toList) content : ℚ) * 0.4
      + (countMatches (matchLit "?.".toList) content : ℚ) * 0.1
      + (countMatches (matchLit "??".toList) content : ℚ) * 0.2
      + (countMatches (matchLit "@escaping".toList) content : ℚ) * 0.3
      + (countMatches (matchBothB "closure".toList) content : ℚ) * 0.2
      + (countMatches (matchPreB "init?".toList) content : ℚ) * 0.2
      + (countMatches (matchBothB "deinit".toList) content : ℚ) * 0.3
      + (countMatches (matchPostB "@objc".toList) content : ℚ) * 0.2
      + (countMatches (matchBothB "extension".toList) content : ℚ) * 0.1) :=
  calculate_complexity_eq content

/-- Claim C8: a file with empty content has score 0, no types and no
functions; more generally any text with zero matches of every scored pattern
has score exactly 0. -/
theorem claim8_empty_zero :
    (calculate_complexity [] = 0 ∧ count_types [] = 0 ∧ count_functions [] = 0) ∧
    ∀ c : Str,
      countMatches (matchLit ['{']) c = 0 →
      countMatches (matchKwAlt condKws) c = 0 →
      countMatches matchBang c = 0 →
      countMatches (matchLit "as!".toList) c = 0 →
      countMatches (matchLit "try?".toList) c = 0 →
      countMatches (matchLit "try!".toList) c = 0 →
      countMatches (matchLit "?.".toList) c = 0 →
      countMatches (matchLit "??".toList) c = 0 →
      countMatches (matchLit "@escaping".toList) c = 0 →
      countMatches (matchBothB "closure".toList) c = 0 →
      countMatches (matchPreB "init?".toList) c = 0 →
      countMatches (matchBothB "deinit".toList) c = 0 →
      countMatches (matchPostB "@objc".toList) c = 0 →
      countMatches (matchBothB "extension".toList) c = 0 →
      calculate_complexity c = 0 := by
  constructor
  · refine ⟨?_, by decide, by decide⟩
    rw [calculate_complexity_eq]
    norm_num [show ∀ m : Matcher, countMatches m [] = 0 from fun _ => rfl]
  · intro c h1 h2 h3 h4 h5 h6 h7 h8 h9 h10 h11 h12 h13 h14
    rw [calculate_complexity_eq, h1, h2, h3, h4, h5, h6, h7, h8, h9, h10, h11, h12, h13, h14]
    norm_num

/-- Witness for C8: a concrete text matching none of the patterns scores 0. -/
theorem claim8_witness : calculate_complexity "let x = 1".toList = 0 :=
  claim8_empty_zero.2 "let x = 1".toList (by decide) (by decide) (by decide) (by decide)
    (by decide) (by decide) (by decide) (by decide) (by decide) (by decide) (by decide)
    (by decide) (by decide) (by decide)

/-- Claim C5: the lint loader counts, per path, the log lines containing a
severity marker, keyed by the text before the first colon; unmarked lines are
skipped, a missing log yields the empty mapping, unmentioned paths default
to 0; on the sample log `Foo.src` counts 2 and `Bar.src` counts 1. -/
theorem claim5_lint_loader :
    (∀ p, lintMapOf none p = 0) ∧
    (∀ (ls : List Str) (p : Str),
      lintMapOf (some ls) p =
        (ls.filter (fun l => qualifiesLint l && lintKey l == p)).length) ∧
    lintMapOf (some demoLog) "Foo.src".toList = 2 ∧
    lintMapOf (some demoLog) "Bar.src".toList = 1 ∧
    lintMapOf (some demoLog) "Baz.src".toList = 0 := by
  refine ⟨fun p => rfl, fun ls p => parseLintLines_apply ls p, by decide, by decide, by decide⟩

/-- Claim C2: the ranking sorts records in descending order of
`complexity_score + lint_issues * 0.5` and is stable (each key class keeps
collection order); on records with keys `[1, 3, 3, 2]` it yields keys
`[3, 3, 2, 1]` with the two key-3 records in their original relative order. -/
theorem claim2_sort_stable_descending :
    (∀ l : List FileMetrics, (sortMetrics l).Pairwise keyGE) ∧
    (∀ l : List FileMetrics, (sortMetrics l).Perm l) ∧
    (∀ (l : List FileMetrics) (k : ℚ),
      (sortMetrics l).filter (fun m => decide (sortKey m = k)) =
        l.filter (fun m => decide (sortKey m = k))) ∧
    sortMetrics [recA, recB, recC, recD] = [recB, recC, recD, recA] := by
  refine ⟨sortMetrics_sorted, sortMetrics_perm, sortMetrics_stable, ?_⟩
  show List.insertionSort keyGE [recA, recB, recC, recD] = _
  norm_num [List.insertionSort, List.orderedInsert, keyGE, sortKey, recA, recB, recC, recD]

/-- Claim C7: a recommendation block appears for an entry iff its score
exceeds 5 or it has lint issues; within an emitted block each suggestion line
appears iff its threshold is exceeded, and the simplification line comes with
its three sub-bullets iff the score exceeds 10.  An entry with score 3 and no
lint issues yields no block; one with 301 lines (and an emitted block) yields
the splitting line. -/
theorem claim7_recommendation_gating :
    (∀ metrics : List FileMetrics, ∃ pre, generateReport metrics =
        pre ++ ((sortMetrics metrics).take 5).flatMap recLines) ∧
    (∀ m : FileMetrics,
      (recLines m ≠ [] ↔ (5 < m.complexity_score ∨ 0 < m.lint_issues)) ∧
      (OutLine.txt "- Consider splitting into smaller files" ∈ recLines m ↔
        ((5 < m.complexity_score ∨ 0 < m.lint_issues) ∧ 300 < m.line_count)) ∧
      (OutLine.txt "- Consider separating types into different files" ∈ recLines m ↔
        ((5 < m.complexity_score ∨ 0 < m.lint_issues) ∧ 3 < m.type_count)) ∧
      (OutLine.txt "- Consider extracting some functions into extensions" ∈ recLines m ↔
        ((5 < m.complexity_score ∨ 0 < m.lint_issues) ∧ 10 < m.function_count)) ∧
      (OutLine.txt "- Address SwiftLint issues" ∈ recLines m ↔
        ((5 < m.complexity_score ∨ 0 < m.lint_issues) ∧ 0 < m.lint_issues)) ∧
      ((OutLine.txt "- High complexity score indicates need for simplification" ∈ recLines m ∧
        OutLine.txt "  * Look for opportunities to reduce nesting" ∈ recLines m ∧
        OutLine.txt "  * Consider breaking down complex functions" ∈ recLines m ∧
        OutLine.txt "  * Review force unwrapping and force casting usage" ∈ recLines m) ↔
        ((5 < m.complexity_score ∨ 0 < m.lint_issues) ∧ 10 < m.complexity_score))) ∧
    recLines ⟨"p".toList, 0, 0, 0, 3, 0⟩ = [] ∧
    OutLine.txt "- Consider splitting into smaller files" ∈
      recLines ⟨"q".toList, 301, 0, 0, 6, 0⟩ := by
  refine ⟨?_, ?_, ?_, ?_⟩
  · intro metrics
    refine ⟨[OutLine.txt "\nRefactoring Priority Report",
      OutLine.txt "=========================\n",
      OutLine.txt "Top 10 Files Requiring Attention:",
      OutLine.txt "--------------------------------"]
      ++ ((sortMetrics metrics).take 10).flatMap topEntry
      ++ [OutLine.txt "\nSummary Statistics:",
          OutLine.txt "------------------",
          OutLine.natLine "Total Files: " (sortMetrics metrics).length,
          OutLine.natLine "Total Lines: " ((sortMetrics metrics).map (·.line_count)).sum,
          OutLine.natLine "Total Types: " ((sortMetrics metrics).map (·.type_count)).sum,
          OutLine.natLine "Total Functions: "
            ((sortMetrics metrics).map (·.function_count)).sum,
          OutLine.natLine "Total Lint Issues: " ((sortMetrics metrics).map (·.lint_issues)).sum,
          OutLine.txt "\nRefactoring Recommendations:",
          OutLine.txt "---------------------------"], ?_⟩
    simp [generateReport]
  · intro m
    by_cases hc : 5 < m.complexity_score ∨ 0 < m.lint_issues
    · by_cases h1 : 300 < m.line_count <;> by_cases h2 : 3 < m.type_count <;>
        by_cases h3 : 10 < m.function_count <;> by_cases h4 : 0 < m.lint_issues <;>
        by_cases h5 : 10 < m.complexity_score <;>
        simp [recLines, hc, h1, h2, h3, h4, h5]
    · simp [recLines, hc]
  · norm_num [recLines]
  · norm_num [recLines]

/-- Claim C9: the summary section reports the file count and the sums of
`line_count`, `type_count`, `function_count` and `lint_issues` over every
collected record; with no collected files the report is still produced with
all totals 0. -/
theorem claim9_summary_totals :
    (∀ metrics : List FileMetrics,
      OutLine.natLine "Total Files: " metrics.length ∈ generateReport metrics ∧
      OutLine.natLine "Total Lines: " (metrics.map (·.line_count)).sum ∈
        generateReport metrics ∧
      OutLine.natLine "Total Types: " (metrics.map (·.type_count)).sum ∈
        generateReport metrics ∧
      OutLine.natLine "Total Functions: " (metrics.map (·.function_count)).sum ∈
        generateReport metrics ∧
      OutLine.natLine "Total Lint Issues: " (metrics.map (·.lint_issues)).sum ∈
        generateReport metrics) ∧
    generateReport [] =
      [OutLine.txt "\nRefactoring Priority Report",
       OutLine.txt "=========================\n",
       OutLine.txt "Top 10 Files Requiring Attention:",
       OutLine.txt "--------------------------------",
       OutLine.txt "\nSummary Statistics:",
       OutLine.txt "------------------",
       OutLine.natLine "Total Files: " 0,
       OutLine.natLine "Total Lines: " 0,
       OutLine.natLine "Total Types: " 0,
       OutLine.natLine "Total Functions: " 0,
       OutLine.natLine "Total Lint Issues: " 0,
       OutLine.txt "\nRefactoring Recommendations:",
       OutLine.txt "---------------------------"] := by
  refine ⟨fun metrics => ?_, rfl⟩
  have hperm := sortMetrics_perm metrics
  have hlen : (sortMetrics metrics).length = metrics.length := hperm.length_eq
  have hl : ((sortMetrics metrics).map (·.line_count)).sum =
      (metrics.map (·.line_count)).sum := (hperm.map _).sum_eq
  have ht : ((sortMetrics metrics).map (·.type_count)).sum =
      (metrics.map (·.type_count)).sum := (hperm.map _).sum_eq
  have hf : ((sortMetrics metrics).map (·.function_count)).sum =
      (metrics.map (·.function_count)).sum := (hperm.map _).sum_eq
  have hi : ((sortMetrics metrics).map (·.lint_issues)).sum =
      (metrics.map (·.lint_issues)).sum := (hperm.map _).sum_eq
  refine ⟨?_, ?_, ?_, ?_, ?_⟩ <;> simp [generateReport, hlen, hl, ht, hf, hi]

/-- An eligible path ends in `.swift`. -/
lemma shouldAnalyze_suffix {p : Str} (h : shouldAnalyzeFile p = true) :
    ".swift".toList.isSuffixOf p = true := by
  unfold shouldAnalyzeFile at h
  split at h
  · exact absurd h (by simp)
  · exact h

/-- Every collected record stems from an eligible, successfully read walked
file, and is that file's record. -/
lemma mem_metrics {root : Str} {fs : FS} {m : FileMetrics}
    (hm : m ∈ (analyzeSwiftFiles root fs).1) :
    ∃ pr, pr ∈ walkPairs fs.walk ∧ ∃ c,
      shouldAnalyzeFile (pathJoin pr.1 pr.2) = true ∧
      fs.read (pathJoin pr.1 pr.2) = Except.ok c ∧
      m = fileRecord root (lintMapOf fs.lintLines) (pathJoin pr.1 pr.2) c := by
  rw [analyze_characterization] at hm
  simp only [List.mem_filterMap] at hm
  obtain ⟨pr, hpr, hproc⟩ := hm
  refine ⟨pr, hpr, ?_⟩
  simp only [processOk] at hproc
  by_cases hs : shouldAnalyzeFile (pathJoin pr.1 pr.2)
  · rw [if_pos hs] at hproc
    cases hr : fs.read (pathJoin pr.1 pr.2) with
    | ok c =>
      rw [hr] at hproc
      exact ⟨c, hs, rfl, (Option.some.injEq _ _).mp hproc |>.symm⟩
    | error e =>
      rw [hr] at hproc
      exact absurd hproc (by simp)
  · rw [if_neg hs] at hproc
    exact absurd hproc (by simp)

/-- Under a well-formed walk, every collected record comes from a full path
strictly below the root, stores the path with the root stripped, and looks its
lint count up under the full path. -/
lemma mem_metrics_shape {root : Str} {fs : FS} (hwf : FS.WF root fs) {m : FileMetrics}
    (hm : m ∈ (analyzeSwiftFiles root fs).1) :
    ∃ tail c,
      shouldAnalyzeFile (root ++ '/' :: tail) = true ∧
      fs.read (root ++ '/' :: tail) = Except.ok c ∧
      m = fileRecord root (lintMapOf fs.lintLines) (root ++ '/' :: tail) c := by
  obtain ⟨pr, hpr, c, hs, hr, hm'⟩ := mem_metrics hm
  obtain ⟨hroot, hsl, hwalk⟩ := hwf
  have hpair : ∃ e, e ∈ fs.walk ∧ pr.1 = e.1 ∧ pr.2 ∈ e.2 := by
    simp only [walkPairs, List.mem_flatMap, List.mem_map] at hpr
    obtain ⟨e, he, n, hn, heq⟩ := hpr
    exact ⟨e, he, by rw [← heq], by rw [← heq]; exact hn⟩
  obtain ⟨e, he, h1, h2⟩ := hpair
  have hcond := hwalk e he
  obtain ⟨tail, htail⟩ :=
    pathJoin_shape hroot hsl (h1 ▸ hcond.1) (hcond.2 pr.2 h2)
  rw [htail] at hs hr hm'
  exact ⟨tail, c, hs, hr, hm'⟩

/-- The record stored for a path below the root ends in `.swift`. -/
lemma metrics_path_suffix {root : Str} {fs : FS} (hwf : FS.WF root fs) {m : FileMetrics}
    (hm : m ∈ (analyzeSwiftFiles root fs).1) :
    ".swift".toList.isSuffixOf m.path = true := by
  obtain ⟨tail, c, hs, _, hm'⟩ := mem_metrics_shape hwf hm
  have hsfx : ".swift".toList <:+ root ++ '/' :: tail :=
    List.isSuffixOf_iff_suffix.mp (shouldAnalyze_suffix hs)
  have htail : ".swift".toList <:+ tail := suffix_drop_of_no_sep (by decide) hsfx
  rw [hm']
  show ".swift".toList.isSuffixOf (relpath (root ++ '/' :: tail) root) = true
  rw [relpath_below]
  exact List.isSuffixOf_iff_suffix.mpr htail

/-- The summary line with the collection's size is in every report. -/
lemma totalFiles_mem (metrics : List FileMetrics) :
    OutLine.natLine "Total Files: " metrics.length ∈ generateReport metrics := by
  have hlen := (sortMetrics_perm metrics).length_eq
  simp [generateReport, hlen]

lemma mSolo_mem : mSolo ∈ (analyzeSwiftFiles "r".toList fsSolo).1 := by
  have h : (analyzeSwiftFiles "r".toList fsSolo).1 = [mSolo] := by
    show (analyzeWalk _ _ _ _).1 = _
    simp only [analyzeWalk, analyzeDir]
    rfl
  rw [h]
  exact List.mem_singleton.mpr rfl

/-- Counterexample to claim C3: the script never checks that the given path is
a directory.  With the correct argument count and a non-directory path,
`os.walk` yields nothing, the report is printed and the exit status is 0, not
the claimed non-zero usage failure. -/
theorem claim3_counterexample :
    fsNoDir.isDir = false ∧ (runMain argvND fsNoDir).exitCode = 0 ∧
    (runMain argvND fsNoDir).out ≠ [usageLine] := by
  refine ⟨rfl, rfl, ?_⟩
  decide

/-- Claim C3 (amended): the program exits non-zero with the usage message iff
the argument count is wrong; the path is never validated, so with two
arguments it always prints the report and exits 0 — for a non-directory path
(empty walk) the report of an empty scan — regardless of how many files were
skipped. -/
theorem claim3_amended_exit_behavior :
    (∀ (argv : List Str) (fs : FS),
      runMain argv fs =
        if argv.length = 2 then
          ⟨0, generateReport (analyzeSwiftFiles (argv.getD 1 []) fs).1,
           (analyzeSwiftFiles (argv.getD 1 []) fs).2⟩
        else ⟨1, [usageLine], []⟩) ∧
    (∀ (argv : List Str) (fs : FS), fs.isDir = false → fs.walk = [] → argv.length = 2 →
      (runMain argv fs).exitCode = 0 ∧ (runMain argv fs).out = generateReport []) := by
  constructor
  · intro argv fs
    by_cases h : argv.length = 2 <;> simp [runMain, h]
  · intro argv fs _ hwalk hlen
    constructor
    · simp [runMain, hlen]
    · simp [runMain, hlen, analyzeSwiftFiles, hwalk, analyzeWalk]

/-- Witness for the amended C3 at a concrete non-directory run. -/
theorem claim3_witness :
    (runMain argvND fsNoDir).exitCode = 0 ∧ (runMain argvND fsNoDir).out = generateReport [] :=
  claim3_amended_exit_behavior.2 argvND fsNoDir rfl rfl rfl

/-- Claim C4: a read error on one file never aborts the scan — the metrics are
exactly the records of the eligible readable files and the stderr channel the
messages of the eligible failing ones; concretely, with 3 eligible files of
which one fails to read, 2 records are collected, one error line is emitted,
the report's file count is 2 and the run exits 0. -/
theorem claim4_partial_failure :
    (∀ (root : Str) (fs : FS),
      analyzeSwiftFiles root fs =
        ((walkPairs fs.walk).filterMap (processOk root (lintMapOf fs.lintLines) fs.read),
         (walkPairs fs.walk).filterMap (processErr fs.read))) ∧
    (analyzeSwiftFiles "proj".toList fsPartial).1.length = 2 ∧
    (analyzeSwiftFiles "proj".toList fsPartial).2 =
      ["Error processing proj/b.swift: Permission denied".toList] ∧
    (runMain argvPartial fsPartial).exitCode = 0 ∧
    OutLine.natLine "Total Files: " 2 ∈ (runMain argvPartial fsPartial).out := by
  refine ⟨analyze_characterization, rfl, by decide, rfl, ?_⟩
  have hout : (runMain argvPartial fsPartial).out =
      generateReport (analyzeSwiftFiles "proj".toList fsPartial).1 := rfl
  rw [hout, show (2 : Nat) = (analyzeSwiftFiles "proj".toList fsPartial).1.length from rfl]
  exact totalFiles_mem _

/-- Claim C6: a path one of whose segments is an excluded directory name is
rejected by the eligibility filter regardless of extension; every collected
record stems from a file that passed the filter; and (for a well-formed walk)
every collected record's stored path ends in `.swift`. -/
theorem claim6_exclusion_filter :
    (∀ p : Str, (∃ seg, seg ∈ splitSep p ∧ seg ∈ excludedDirs) →
      shouldAnalyzeFile p = false) ∧
    (∀ (root : Str) (fs : FS) (m : FileMetrics), m ∈ (analyzeSwiftFiles root fs).1 →
      ∃ pr, pr ∈ walkPairs fs.walk ∧ ∃ c,
        shouldAnalyzeFile (pathJoin pr.1 pr.2) = true ∧
        fs.read (pathJoin pr.1 pr.2) = Except.ok c ∧
        m = fileRecord root (lintMapOf fs.lintLines) (pathJoin pr.1 pr.2) c) ∧
    (∀ (root : Str) (fs : FS), FS.WF root fs →
      ∀ m ∈ (analyzeSwiftFiles root fs).1, ".swift".toList.isSuffixOf m.path = true) := by
  refine ⟨?_, fun root fs m hm => mem_metrics hm,
    fun root fs hwf m hm => metrics_path_suffix hwf hm⟩
  intro p ⟨seg, hmem, hexc⟩
  have hany : (splitSep p).any (fun part => excludedDirs.contains part) = true := by
    rw [List.any_eq_true]
    exact ⟨seg, hmem, by simpa using hexc⟩
  unfold shouldAnalyzeFile
  rw [hany]
  rfl

/-- Witness for C6 at concrete inputs: an excluded-segment path is rejected,
and the one record of a concrete well-formed run has a `.swift` path. -/
theorem claim6_witness :
    shouldAnalyzeFile "Sources/Tests/Helper.txt".toList = false ∧
    ".swift".toList.isSuffixOf mSolo.path = true := by
  constructor
  · exact claim6_exclusion_filter.1 "Sources/Tests/Helper.txt".toList
      ⟨"Tests".toList, by decide, by decide⟩
  · exact claim6_exclusion_filter.2.2 "r".toList fsSolo
      ⟨by decide, by decide, by decide⟩ mSolo mSolo_mem

/-- Counterexample to claim C10: with scan root `a` (not the current
directory) and a log whose paths are exactly the root-relative paths of the
walked files, the record of `a/x.swift` still gets `lint_issues = 1`, because
its lookup key — the full path `a/x.swift` — coincides with the *other* file's
logged relative path.  So "lint_issues is 0 for every record" fails as a
universal statement. -/
theorem claim10_counterexample :
    relpath (pathJoin "a".toList "x.swift".toList) "a".toList = "x.swift".toList ∧
    relpath (pathJoin "a/a".toList "x.swift".toList) "a".toList = "a/x.swift".toList ∧
    fsX.lintLines = some lintLogX ∧
    lintLogX.map lintKey = ["x.swift".toList, "a/x.swift".toList] ∧
    "a".toList ≠ ".".toList ∧
    ((analyzeSwiftFiles "a".toList fsX).1.map (·.lint_issues)) = [1, 0] := by
  refine ⟨by decide, by decide, rfl, by decide, by decide, by decide⟩

/-- Claim C10 (amended): every collected record's lint count is looked up
under the full traversal path `root ++ '/' :: tail`, while the stored path is
the relative `tail`, which always differs from the lookup key; and whenever no
path carrying a recorded lint issue starts with the root plus separator — in
particular when the log's paths are written relative to a scan root other than
the current directory and none of them collides with a full traversal path —
every collected record has `lint_issues = 0`. -/
theorem claim10_amended_lint_zero :
    ∀ (root : Str) (fs : FS), FS.WF root fs →
      (∀ p : Str, (root ++ ['/']).isPrefixOf p = true → lintMapOf fs.lintLines p = 0) →
      ∀ m ∈ (analyzeSwiftFiles root fs).1,
        m.lint_issues = 0 ∧ ∃ tail,
          m.lint_issues = lintMapOf fs.lintLines (root ++ '/' :: tail) ∧
          m.path = tail ∧ m.path ≠ root ++ '/' :: tail := by
  intro root fs hwf hz m hm
  obtain ⟨tail, c, _, _, hm'⟩ := mem_metrics_shape hwf hm
  have hpre : (root ++ ['/']).isPrefixOf (root ++ '/' :: tail) = true := by
    rw [List.isPrefixOf_iff_prefix]
    exact ⟨tail, by simp⟩
  have hlint : m.lint_issues = lintMapOf fs.lintLines (root ++ '/' :: tail) := by
    rw [hm']
    rfl
  have hpath : m.path = tail := by
    rw [hm']
    show relpath (root ++ '/' :: tail) root = tail
    exact relpath_below root tail
  refine ⟨by rw [hlint]; exact hz _ hpre, tail, hlint, hpath, ?_⟩
  rw [hpath]
  intro heq
  have hlen := congrArg List.length heq
  simp at hlen
  omega

/-- Witness for the amended C10 at a concrete run with no lint log. -/
theorem claim10_witness : mSolo.lint_issues = 0 :=
  (claim10_amended_lint_zero "r".toList fsSolo ⟨by decide, by decide, by decide⟩
    (fun _ _ => rfl) mSolo mSolo_mem).1
